import Mathlib

/-!
A shallow embedding of `override_field/fields.py` from the
`django-override-field` package, together with theorems about the behavior
of its operations.

The embedding models:
  * Python attribute dictionaries of model instances as association lists
    from attribute names to Python values (`Obj`);
  * the collection of live model instances as a heap indexed by `Nat`
    (`Heap`), so that views holding a reference to an instance can be
    distinguished from views holding a copy of its data;
  * `MultiColumnField.contribute_to_class` as a pure function from the
    declared sub-field mapping to the list of registered physical columns
    and the recorded `field_names` map;
  * the generated `MultiColumnFieldInstance` view type, its `to_dict`
    method, and the three branches of `MultiColumnField.__set__`;
  * `MultiColumnField.__init__`'s resolution of the `fields` mapping,
    including the Python name-resolution failures present in the source
    (`ValidationError` is never imported, and `self.fields` is read even
    when no class-level `fields` attribute exists);
  * `OverrideFieldAdminMixin.save_model`.
-/

namespace OverrideFieldModel

/-- A Python value as it appears in the physical columns handled by this
package: `None`, booleans, integers and strings. -/
inductive PyValue : Type where
  | none : PyValue
  | bool : Bool → PyValue
  | int : Int → PyValue
  | str : String → PyValue
deriving DecidableEq, Repr

/-- The kinds of Python exceptions the modelled code can raise. -/
inductive PyErr : Type where
  | attributeError : PyErr
  | nameError : PyErr
  | typeError : PyErr
  | keyError : String → PyErr
deriving DecidableEq, Repr

/-- Lookup in an association list, modelling Python dictionary access and
attribute access on an object `__dict__` (`Option.none` = key absent). -/
def alookup {β : Type} (k : String) : List (String × β) → Option β
  | [] => Option.none
  | p :: t => if p.1 = k then some p.2 else alookup k t

/-- Update-or-append in an association list, modelling Python `setattr` /
dictionary item assignment (existing keys keep their position). -/
def aset {β : Type} (k : String) (v : β) : List (String × β) → List (String × β)
  | [] => [(k, v)]
  | p :: t => if p.1 = k then (k, v) :: t else p :: aset k v t

/-- The attribute dictionary of one Django model instance. -/
abbrev Obj : Type := List (String × PyValue)

/-- Python `getattr(obj, k, None)`: the attribute value, defaulting to
`None` when the attribute is absent. -/
def getattrD (obj : Obj) (k : String) : PyValue :=
  (alookup k obj).getD PyValue.none

/-- The collection of live model instances, indexed by object identity. -/
abbrev Heap : Type := Nat → Obj

/-- Replace the instance at index `i`. -/
def hset (h : Heap) (i : Nat) (o : Obj) : Heap :=
  fun j => if j = i then o else h j

/-- Python `setattr` on the instance at index `i`. -/
def hsetattr (h : Heap) (i : Nat) (k : String) (v : PyValue) : Heap :=
  hset h i (aset k v (h i))

/- ## `MultiColumnField.contribute_to_class`

The source iterates over `self.fields.items()`, computing
`field_name = "%s_%s" % (self.name, suffix)`, recording
`self.field_names[suffix] = field_name`, and calling
`cls.add_to_class(field_name, field)`.  The fold below performs the same
iteration, accumulating the list of `add_to_class` registrations (first
component) and the `field_names` entries (second component) in loop order. -/

/-- One iteration of the registration loop in `contribute_to_class`. -/
def contribute_step {α : Type} (name : String)
    (acc : List (String × α) × List (String × String)) (p : String × α) :
    List (String × α) × List (String × String) :=
  let field_name := name ++ "_" ++ p.1
  (acc.1 ++ [(field_name, p.2)], acc.2 ++ [(p.1, field_name)])

/-- `MultiColumnField.contribute_to_class`: from the attribute name and the
declared sub-field mapping, the list of physical columns registered on the
owning class and the recorded `field_names` mapping. -/
def contribute_to_class {α : Type} (name : String) (fields : List (String × α)) :
    List (String × α) × List (String × String) :=
  fields.foldl (contribute_step name) ([], [])

/- ## The generated instance view type and accessors -/

/-- Modelled from the spec: the source calls `_make_property(self,
self.field.field_names[name])` inside the generated instance class, but
`_make_property` itself is missing from the repository sources.  Per the
spec, each sub-field is exposed as a readable/writable property that proxies
to the corresponding physical column on the owning instance: the getter
performs `getattr(instance, column)` (failing when the column attribute is
absent) and the setter performs `setattr(instance, column, value)`. -/
def make_property (col : String) :
    (Heap → Nat → Option PyValue) × (Heap → Nat → PyValue → Heap) :=
  (fun h i => alookup col (h i), fun h i v => hsetattr h i col v)

/-- The generated `MultiColumnFieldInstance` view: it records a reference to
the owning instance (its heap index) together with the field's sub-field
names and `field_names` mapping; it stores no column values of its own. -/
structure MultiColumnFieldInstance : Type where
  instId : Nat
  names : List String
  field_names : String → String

/-- `MultiColumnField.__get__` on an instance: a freshly constructed view
bound to that instance (no caching). -/
def mcf_get (names : List String) (fns : String → String) (i : Nat) :
    MultiColumnFieldInstance :=
  ⟨i, names, fns⟩

/-- `MultiColumnFieldInstance.to_dict`: for each sub-field name, read
`getattr(self.instance, self.field.field_names[name], None)` from the
current state of the owning instance. -/
def MultiColumnFieldInstance.to_dict (v : MultiColumnFieldInstance) (h : Heap) :
    List (String × PyValue) :=
  v.names.map (fun n => (n, getattrD (h v.instId) (v.field_names n)))

/- ## `MultiColumnField.__set__` -/

/-- The shape of the value assigned to the composite attribute, following the
`isinstance` dispatch in `__set__`: an `InstanceView` of this field's own
generated class (which therefore shares this field's `names` and
`field_names`), a plain dict, or any other object (including views of a
different field's generated class, which fail both `isinstance` checks). -/
inductive SetValue : Type where
  | view : Nat → SetValue
  | dict : List (String × PyValue) → SetValue
  | other : SetValue

/-- One iteration of the view-copy loop in `__set__`:
`setattr(temp_field_instance, name, getattr(value, name, None))`.  The write
goes through the generated property's setter on the destination instance;
the read goes through the generated property's getter on the source view's
instance, with `getattr`'s `None` default absorbing an absent column. -/
def view_copy_step (fns : String → String) (dst src : Nat) (h : Heap)
    (n : String) : Heap :=
  (make_property (fns n)).2 h dst
    (((make_property (fns n)).1 h src).getD PyValue.none)

/-- The `InstanceView` branch of `__set__`: copy each sub-field's current
value from the source view's instance into the destination instance,
attribute by attribute, in `names` order. -/
def set_from_view (names : List String) (fns : String → String)
    (dst src : Nat) (h : Heap) : Heap :=
  names.foldl (view_copy_step fns dst src) h

/-- The dict branch of `__set__`: for each declared sub-field name in order,
`setattr(temp_field_instance, name, value[name])`; `value[name]` raises
`KeyError` when the name is absent, leaving the writes already performed in
place. -/
def set_from_dict (fns : String → String) (m : List (String × PyValue))
    (dst : Nat) : List String → Heap → Heap × Option PyErr
  | [], h => (h, Option.none)
  | n :: t, h =>
    match alookup n m with
    | Option.none => (h, some (PyErr.keyError n))
    | some v => set_from_dict fns m dst t ((make_property (fns n)).2 h dst v)

/-- `MultiColumnField.__set__`: dispatch on the shape of the assigned value;
a value of any other type raises `TypeError` without touching any column. -/
def mcf_set (names : List String) (fns : String → String) (h : Heap)
    (dst : Nat) : SetValue → Heap × Option PyErr
  | SetValue.view src => (set_from_view names fns dst src h, Option.none)
  | SetValue.dict m => set_from_dict fns m dst names h
  | SetValue.other => (h, some PyErr.typeError)

/- ## `OverrideFieldAdminMixin.save_model` -/

/-- Python truthiness on the modelled values, as tested by
`if not getattr(obj, field_name+'_enable_override'):`. -/
def truthy : PyValue → Bool
  | PyValue.none => false
  | PyValue.bool b => b
  | PyValue.int n => decide (n ≠ 0)
  | PyValue.str s => decide (s ≠ "")

/-- `OverrideFieldAdminMixin.save_model(self, request, obj, form, change)`:
when the `<field_name>_enable_override` column is falsy, set the
`<field_name>_override_obj` column to `None`, then call `obj.save()`; the
first component of the result is the object state passed to `obj.save()`
(the persisted state).  `request`, `form` and `change` are unused by the
hook.  Reading the flag with plain `getattr` raises `AttributeError` when
the attribute is absent. -/
def save_model (field_name : String) (request : PyValue) (obj : Obj)
    (form : PyValue) (change : Bool) : Obj × Option PyErr :=
  match alookup (field_name ++ "_enable_override") obj with
  | Option.none => (obj, some PyErr.attributeError)
  | some v =>
    if truthy v then (obj, Option.none)
    else (aset (field_name ++ "_override_obj") PyValue.none obj, Option.none)

/- ## `MultiColumnField.__init__` -/

/-- The state of the class-level `fields` attribute as seen by
`self.fields` in `MultiColumnField.__init__`: absent (the lookup raises
`AttributeError`), bound to `None`, or bound to a dict. -/
inductive FieldsAttr (α : Type) : Type where
  | absent : FieldsAttr α
  | pyNone : FieldsAttr α
  | dict : List (String × α) → FieldsAttr α

/-- The tail of `__init__` when the class-level `fields` attribute is falsy:
`self.fields = kwargs.pop('fields', None)` followed by
`if not self.fields: raise ValidationError(...)`.  `ValidationError` is
never imported in `fields.py`, so executing the `raise` statement itself
fails with `NameError`. -/
def init_resolve {α : Type} : Option (List (String × α)) →
    Except PyErr (List (String × α))
  | Option.none => Except.error PyErr.nameError
  | some m => if m.isEmpty then Except.error PyErr.nameError else Except.ok m

/-- `MultiColumnField.__init__`: `if not self.fields:` reads the class-level
attribute — raising `AttributeError` when it does not exist — and falls back
to the `fields` keyword argument only when the class-level value is falsy
(`None` or an empty dict). -/
def mcf_init {α : Type} (classFields : FieldsAttr α)
    (kwargFields : Option (List (String × α))) :
    Except PyErr (List (String × α)) :=
  match classFields with
  | FieldsAttr.absent => Except.error PyErr.attributeError
  | FieldsAttr.pyNone => init_resolve kwargFields
  | FieldsAttr.dict m => if m.isEmpty then init_resolve kwargFields else Except.ok m

/- ## Basic lemmas about the attribute model -/

theorem alookup_aset_self {β : Type} (k : String) (v : β) (l : List (String × β)) :
    alookup k (aset k v l) = some v := by
  induction l with
  | nil => simp [alookup, aset]
  | cons p t ih =>
    by_cases hp : p.1 = k
    · simp [aset, hp, alookup]
    · simp [aset, hp, alookup, ih]

theorem alookup_aset_ne {β : Type} {k k' : String} (hne : k' ≠ k) (v : β)
    (l : List (String × β)) : alookup k' (aset k v l) = alookup k' l := by
  have hne' : k ≠ k' := Ne.symm hne
  induction l with
  | nil => simp [alookup, aset, hne']
  | cons p t ih =>
    by_cases hp : p.1 = k
    · subst hp
      simp [aset, alookup, hne']
    · simp only [aset, if_neg hp, alookup, ih]

theorem alookup_map_self {β : Type} {names : List String} {n : String}
    (g : String → β) (hmem : n ∈ names) :
    alookup n (names.map (fun x => (x, g x))) = some (g n) := by
  induction names with
  | nil => cases hmem
  | cons p t ih =>
    rcases List.mem_cons.mp hmem with h | h
    · subst h; simp [alookup]
    · by_cases hp : p = n
      · subst hp; simp [alookup]
      · simp [alookup, hp, ih h]

theorem alookup_map_not_mem {β : Type} {names : List String} {n : String}
    (g : String → β) (hmem : n ∉ names) :
    alookup n (names.map (fun x => (x, g x))) = Option.none := by
  induction names with
  | nil => simp [alookup]
  | cons p t ih =>
    have hp : p ≠ n := fun h => hmem (h ▸ List.mem_cons_self p t)
    have ht : n ∉ t := fun h => hmem (List.mem_cons_of_mem p h)
    simp [alookup, hp, ih ht]

theorem alookup_isSome_iff_mem_keys {β : Type} (k : String) (l : List (String × β)) :
    (alookup k l).isSome ↔ k ∈ l.map Prod.fst := by
  induction l with
  | nil => simp [alookup]
  | cons p t ih =>
    by_cases hp : p.1 = k
    · subst hp; simp [alookup]
    · have hp' : k ≠ p.1 := fun h => hp h.symm
      simp [alookup, hp, ih, hp']

theorem hset_self (h : Heap) (i : Nat) (o : Obj) : (hset h i o) i = o := by
  simp [hset]

theorem hset_ne (h : Heap) {i j : Nat} (o : Obj) (hne : j ≠ i) :
    (hset h i o) j = h j := by
  simp [hset, hne]

theorem hsetattr_self (h : Heap) (i : Nat) (k : String) (v : PyValue) :
    (hsetattr h i k v) i = aset k v (h i) := by
  simp [hsetattr, hset]

theorem hsetattr_ne (h : Heap) {i j : Nat} (k : String) (v : PyValue)
    (hne : j ≠ i) : (hsetattr h i k v) j = h j := by
  simp [hsetattr, hset, hne]

theorem make_property_get (col : String) (h : Heap) (i : Nat) :
    (make_property col).1 h i = alookup col (h i) := rfl

theorem make_property_set (col : String) (h : Heap) (i : Nat) (v : PyValue) :
    (make_property col).2 h i v = hsetattr h i col v := rfl

/- ## Lemmas about the registration loop -/

theorem contribute_foldl {α : Type} (name : String) (fields : List (String × α)) :
    ∀ (c : List (String × α)) (m : List (String × String)),
      fields.foldl (contribute_step name) (c, m) =
        (c ++ fields.map (fun p => (name ++ "_" ++ p.1, p.2)),
         m ++ fields.map (fun p => (p.1, name ++ "_" ++ p.1))) := by
  induction fields with
  | nil => intro c m; simp
  | cons p t ih =>
    intro c m
    rw [List.foldl_cons, contribute_step, ih]
    simp

/- ## Master lemmas about the two write loops of `__set__` -/

theorem view_copy_step_eq (fns : String → String) (dst src : Nat) (h : Heap)
    (n : String) :
    view_copy_step fns dst src h n =
      hsetattr h dst (fns n) (getattrD (h src) (fns n)) := rfl

theorem set_from_view_frame (names : List String) (fns : String → String)
    (dst src : Nat) :
    ∀ (h : Heap) (j : Nat), j ≠ dst → (set_from_view names fns dst src h) j = h j := by
  induction names with
  | nil => intro h j _; rfl
  | cons n t ih =>
    intro h j hj
    rw [set_from_view, List.foldl_cons]
    have := ih (view_copy_step fns dst src h n) j hj
    rw [set_from_view] at this
    rw [this, view_copy_step_eq, hsetattr_ne _ _ _ hj]

theorem set_from_view_lookup (names : List String) (fns : String → String)
    (dst src : Nat) (hne : dst ≠ src) :
    ∀ (h : Heap) (col : String),
      alookup col ((set_from_view names fns dst src h) dst) =
        if col ∈ names.map fns then some (getattrD (h src) col)
        else alookup col (h dst) := by
  induction names with
  | nil => intro h col; simp [set_from_view]
  | cons n t ih =>
    intro h col
    rw [set_from_view, List.foldl_cons]
    have step : set_from_view t fns dst src (view_copy_step fns dst src h n) =
        List.foldl (view_copy_step fns dst src) (view_copy_step fns dst src h n) t := rfl
    rw [← step, ih (view_copy_step fns dst src h n) col]
    have hsrc : (view_copy_step fns dst src h n) src = h src := by
      rw [view_copy_step_eq, hsetattr_ne _ _ _ (Ne.symm hne)]
    have hdst : (view_copy_step fns dst src h n) dst =
        aset (fns n) (getattrD (h src) (fns n)) (h dst) := by
      rw [view_copy_step_eq, hsetattr_self]
    by_cases hmem : col ∈ t.map fns
    · have hmem' : col ∈ (n :: t).map fns := by
        simp only [List.map_cons, List.mem_cons]; exact Or.inr hmem
      simp only [hmem, if_pos, hsrc, hmem', if_pos]
    · by_cases hcol : col = fns n
      · subst hcol
        have hmem' : fns n ∈ (n :: t).map fns := by
          simp only [List.map_cons]
          exact List.mem_cons_self _ _
        simp only [hmem, if_neg, if_false, hdst, alookup_aset_self, hmem', if_pos]
      · have hmem' : col ∉ (n :: t).map fns := by
          simp only [List.map_cons, List.mem_cons]
          rintro (h1 | h2)
          · exact hcol h1
          · exact hmem h2
        simp only [hmem, if_neg, if_false, hmem', hdst,
          alookup_aset_ne hcol]

theorem set_from_dict_frame (fns : String → String) (m : List (String × PyValue))
    (dst : Nat) (names : List String) :
    ∀ (h : Heap) (j : Nat), j ≠ dst →
      (set_from_dict fns m dst names h).1 j = h j := by
  induction names with
  | nil => intro h j _; rfl
  | cons n t ih =>
    intro h j hj
    rw [set_from_dict]
    cases hc : alookup n m with
    | none => rfl
    | some v =>
      simp only []
      rw [ih _ j hj, make_property_set, hsetattr_ne _ _ _ hj]

theorem set_from_dict_frame_col (fns : String → String)
    (m : List (String × PyValue)) (dst : Nat) (names : List String) :
    ∀ (h : Heap) (col : String), col ∉ names.map fns →
      alookup col ((set_from_dict fns m dst names h).1 dst) = alookup col (h dst) := by
  induction names with
  | nil => intro h col _; rfl
  | cons n t ih =>
    intro h col hcol
    have hcol1 : col ≠ fns n := by
      intro h1; exact hcol (by simp [h1])
    have hcol2 : col ∉ t.map fns := by
      intro h2; exact hcol (by simp [h2])
    rw [set_from_dict]
    cases hc : alookup n m with
    | none => rfl
    | some v =>
      simp only []
      rw [ih _ col hcol2, make_property_set, hsetattr_self,
        alookup_aset_ne hcol1]

theorem set_from_dict_ok (fns : String → String) (m : List (String × PyValue))
    (dst : Nat) :
    ∀ (names : List String) (h : Heap),
      (∀ n ∈ names, (alookup n m).isSome) →
      (∀ n₁ ∈ names, ∀ n₂ ∈ names, fns n₁ = fns n₂ → n₁ = n₂) →
      (set_from_dict fns m dst names h).2 = Option.none ∧
      ∀ n ∈ names,
        alookup (fns n) ((set_from_dict fns m dst names h).1 dst) = alookup n m := by
  intro names
  induction names with
  | nil =>
    intro h _ _
    exact ⟨rfl, fun n hn => absurd hn (List.not_mem_nil n)⟩
  | cons n t ih =>
    intro h hall hinj
    obtain ⟨v, hv⟩ := Option.isSome_iff_exists.mp (hall n (List.mem_cons_self n t))
    have hall' : ∀ n' ∈ t, (alookup n' m).isSome :=
      fun n' hn' => hall n' (List.mem_cons_of_mem n hn')
    have hinj' : ∀ n₁ ∈ t, ∀ n₂ ∈ t, fns n₁ = fns n₂ → n₁ = n₂ :=
      fun n₁ h₁ n₂ h₂ he =>
        hinj n₁ (List.mem_cons_of_mem n h₁) n₂ (List.mem_cons_of_mem n h₂) he
    obtain ⟨herr, hlook⟩ := ih ((make_property (fns n)).2 h dst v) hall' hinj'
    simp only [set_from_dict, hv]
    refine ⟨herr, ?_⟩
    intro n₀ hn₀
    rcases List.mem_cons.mp hn₀ with h1 | h1
    · subst h1
      by_cases hmem : fns n₀ ∈ t.map fns
      · obtain ⟨n', hn', he'⟩ := List.mem_map.mp hmem
        have heq : n₀ = n' := hinj n₀ (List.mem_cons_self n₀ t) n'
          (List.mem_cons_of_mem n₀ hn') he'.symm
        have hl := hlook n' hn'
        rw [he'] at hl
        have hrw : alookup n₀ m = alookup n' m := by rw [heq]
        rw [hrw]
        exact hl
      · rw [set_from_dict_frame_col fns m dst t _ _ hmem, make_property_set,
          hsetattr_self, alookup_aset_self, hv]
    · exact hlook n₀ h1

theorem set_from_dict_keyerror (fns : String → String)
    (m : List (String × PyValue)) (dst : Nat) :
    ∀ (names : List String) (h : Heap),
      (∃ n ∈ names, alookup n m = Option.none) →
      ∃ k, alookup k m = Option.none ∧
        (set_from_dict fns m dst names h).2 = some (PyErr.keyError k) := by
  intro names
  induction names with
  | nil =>
    rintro h ⟨n, hn, _⟩
    exact absurd hn (List.not_mem_nil n)
  | cons n t ih =>
    rintro h ⟨n₀, hn₀, hmiss⟩
    cases hc : alookup n m with
    | none =>
      refine ⟨n, hc, ?_⟩
      rw [set_from_dict, hc]
    | some v =>
      have hn₀t : n₀ ∈ t := by
        rcases List.mem_cons.mp hn₀ with h1 | h1
        · subst h1; rw [hc] at hmiss; cases hmiss
        · exact h1
      obtain ⟨k, hk, he⟩ := ih ((make_property (fns n)).2 h dst v) ⟨n₀, hn₀t, hmiss⟩
      refine ⟨k, hk, ?_⟩
      rw [set_from_dict, hc]
      exact he

/- ## Claim theorems -/

/-- Claim C1: for every composite field declared with a sub-field mapping of
N entries, class-attachment (`contribute_to_class`) registers exactly N
physical columns on the owning class, each named
`<attribute-name>_<suffix>`, in the mapping's declared order, and records in
`field_names` the map from each suffix to its generated physical column
name. -/
theorem contribute_to_class_registers_all {α : Type} (name : String)
    (fields : List (String × α)) :
    (contribute_to_class name fields).1.length = fields.length ∧
    (contribute_to_class name fields).1 =
      fields.map (fun p => (name ++ "_" ++ p.1, p.2)) ∧
    (contribute_to_class name fields).2 =
      fields.map (fun p => (p.1, name ++ "_" ++ p.1)) := by
  have h := contribute_foldl name fields [] []
  simp only [List.nil_append] at h
  refine ⟨?_, ?_, ?_⟩
  · rw [contribute_to_class, h]; simp
  · rw [contribute_to_class, h]
  · rw [contribute_to_class, h]

/-- Claim C2: setting the composite attribute to a mapping whose keys
exactly match the declared sub-field names succeeds, and reading the
attribute afterwards and calling `to_dict()` returns a dict equal (as a
key-value mapping) to the assigned mapping; the view reads through to the
instance's current physical column values. -/
theorem set_dict_roundtrip_to_dict (names : List String) (fns : String → String)
    (h : Heap) (dst : Nat) (m : List (String × PyValue))
    (hkeys : (m.map Prod.fst).Perm names)
    (hinj : ∀ n₁ ∈ names, ∀ n₂ ∈ names, fns n₁ = fns n₂ → n₁ = n₂) :
    (mcf_set names fns h dst (SetValue.dict m)).2 = Option.none ∧
    ∀ k, alookup k
        ((mcf_get names fns dst).to_dict (mcf_set names fns h dst (SetValue.dict m)).1)
      = alookup k m := by
  have hmem : ∀ k, k ∈ names ↔ (alookup k m).isSome := by
    intro k
    rw [alookup_isSome_iff_mem_keys]
    exact (hkeys.mem_iff).symm
  have hall : ∀ n ∈ names, (alookup n m).isSome := fun n hn => (hmem n).mp hn
  obtain ⟨herr, hlook⟩ := set_from_dict_ok fns m dst names h hall hinj
  refine ⟨herr, ?_⟩
  intro k
  simp only [mcf_get, MultiColumnFieldInstance.to_dict]
  by_cases hk : k ∈ names
  · rw [alookup_map_self _ hk]
    obtain ⟨v, hv⟩ := Option.isSome_iff_exists.mp ((hmem k).mp hk)
    have hl := hlook k hk
    rw [hv] at hl ⊢
    have hms : (mcf_set names fns h dst (SetValue.dict m)).1 =
        (set_from_dict fns m dst names h).1 := rfl
    rw [getattrD, hms, hl]
    rfl
  · rw [alookup_map_not_mem _ hk]
    cases hc : alookup k m with
    | none => rfl
    | some v =>
      exact absurd ((hmem k).mpr (by rw [hc]; rfl)) hk

/-- Claim C3: for two distinct instances `a` and `b`, assigning to `b` a view
obtained from `a` succeeds and copies each sub-field value into `b`'s
physical columns, so that `b`'s `to_dict()` equals `a`'s `to_dict()` right
after the assignment, and a later mutation of a column of `a` leaves `b`'s
attribute dictionary unchanged. -/
theorem set_view_copies_values (names : List String) (fns : String → String)
    (h : Heap) (a b : Nat) (hne : b ≠ a) :
    (mcf_set names fns h b (SetValue.view a)).2 = Option.none ∧
    (mcf_get names fns b).to_dict (mcf_set names fns h b (SetValue.view a)).1 =
      (mcf_get names fns a).to_dict (mcf_set names fns h b (SetValue.view a)).1 ∧
    ∀ c w, (hsetattr (mcf_set names fns h b (SetValue.view a)).1 a c w) b =
      (mcf_set names fns h b (SetValue.view a)).1 b := by
  have h1 : (mcf_set names fns h b (SetValue.view a)).1 =
      set_from_view names fns b a h := rfl
  refine ⟨rfl, ?_, ?_⟩
  · simp only [mcf_get, MultiColumnFieldInstance.to_dict, h1]
    apply List.map_congr_left
    intro n hn
    have hframe : (set_from_view names fns b a h) a = h a :=
      set_from_view_frame names fns b a h a (Ne.symm hne)
    have hmemmap : fns n ∈ names.map fns := List.mem_map_of_mem fns hn
    have hlk := set_from_view_lookup names fns b a hne h (fns n)
    rw [if_pos hmemmap] at hlk
    rw [hframe]
    simp only [getattrD, hlk, Option.getD_some]
  · intro c w
    rw [h1, hsetattr_ne _ _ _ hne]

/-- Claim C4: when the `<field>_enable_override` column of the object being
saved is `False`, `save_model` sets the `<field>_override_obj` column to
`None` before invoking the save path, whatever value that column held; the
persisted `override_obj` is `None`. -/
theorem save_model_nulls_override (field_name : String) (request : PyValue)
    (obj : Obj) (form : PyValue) (change : Bool)
    (hflag : alookup (field_name ++ "_enable_override") obj =
      some (PyValue.bool false)) :
    (save_model field_name request obj form change).2 = Option.none ∧
    alookup (field_name ++ "_override_obj")
        (save_model field_name request obj form change).1 = some PyValue.none := by
  simp only [save_model, hflag, truthy, Bool.false_eq_true, if_false]
  exact ⟨trivial, alookup_aset_self _ _ _⟩

/-- Claim C5 (evaluation at the failing inputs): constructing a
`MultiColumnField` whose class defines no `fields` attribute fails with
`AttributeError` even when a non-empty `fields` keyword argument is
supplied, because `__init__` reads `self.fields` unguarded — the
constructor-argument channel alone is not accepted; and when the class-level
attribute is `None` and no keyword argument is given, the attempted
`raise ValidationError(...)` fails with `NameError` because
`ValidationError` is never imported, so no configuration error is raised. -/
theorem mcf_init_channels_bug :
    mcf_init (FieldsAttr.absent : FieldsAttr Unit)
        (some [("override_obj", Unit.unit)]) =
      Except.error PyErr.attributeError ∧
    mcf_init (FieldsAttr.pyNone : FieldsAttr Unit) Option.none =
      Except.error PyErr.nameError := ⟨rfl, rfl⟩

/-- Claim C6: assigning to the composite attribute a value that is neither an
`InstanceView` of the field's generated type nor a dict raises `TypeError`
and leaves the whole heap — in particular every physical column of the
assigned instance — unchanged. -/
theorem set_other_type_error (names : List String) (fns : String → String)
    (h : Heap) (dst : Nat) :
    mcf_set names fns h dst SetValue.other = (h, some PyErr.typeError) := rfl

/-- Claim C7: assigning a mapping that lacks at least one declared sub-field
name raises `KeyError` at assignment time, for a key that is indeed absent
from the mapping — the error comes from the `value[name]` dictionary access
itself. -/
theorem set_dict_missing_key_error (names : List String) (fns : String → String)
    (h : Heap) (dst : Nat) (m : List (String × PyValue)) (n₀ : String)
    (hmem : n₀ ∈ names) (hmiss : alookup n₀ m = Option.none) :
    ∃ k, alookup k m = Option.none ∧
      (mcf_set names fns h dst (SetValue.dict m)).2 = some (PyErr.keyError k) :=
  set_from_dict_keyerror fns m dst names h ⟨n₀, hmem, hmiss⟩

/-- Claim C8: when the `<field>_enable_override` column of the object being
saved is `True`, `save_model` passes the object to `obj.save()` with every
attribute unchanged, whatever the `request`, `form` and `change` arguments
are. -/
theorem save_model_enabled_frame (field_name : String) (request : PyValue)
    (obj : Obj) (form : PyValue) (change : Bool)
    (hflag : alookup (field_name ++ "_enable_override") obj =
      some (PyValue.bool true)) :
    save_model field_name request obj form change = (obj, Option.none) := by
  simp only [save_model, hflag, truthy, if_true]

/-- Claim C9: for every instance view, `to_dict()` maps a declared sub-field
name to `None` (rather than raising) when the corresponding physical column
attribute is absent on the owning instance, and to that column's current
value when it is present. -/
theorem to_dict_absent_defaults_none (names : List String)
    (fns : String → String) (h : Heap) (i : Nat) (n : String)
    (hmem : n ∈ names) :
    (alookup (fns n) (h i) = Option.none →
      alookup n ((mcf_get names fns i).to_dict h) = some PyValue.none) ∧
    (∀ w, alookup (fns n) (h i) = some w →
      alookup n ((mcf_get names fns i).to_dict h) = some w) := by
  have hbase : alookup n ((mcf_get names fns i).to_dict h) =
      some (getattrD (h i) (fns n)) := by
    simp only [mcf_get, MultiColumnFieldInstance.to_dict]
    exact alookup_map_self _ hmem
  constructor
  · intro habs
    rw [hbase, getattrD, habs]
    rfl
  · intro w hw
    rw [hbase, getattrD, hw]
    rfl

/-- Claim C10: in the view-copy assignment path, a sub-field whose physical
column is absent on the source view's instance is copied as `None` into the
destination instance's physical column, silently — the assignment reports no
error, because the copy reads each source attribute with a `None` default. -/
theorem set_view_missing_source_copies_none (names : List String)
    (fns : String → String) (h : Heap) (a b : Nat) (hne : b ≠ a) (n : String)
    (hmem : n ∈ names) (hmiss : alookup (fns n) (h a) = Option.none) :
    (mcf_set names fns h b (SetValue.view a)).2 = Option.none ∧
    alookup (fns n) ((mcf_set names fns h b (SetValue.view a)).1 b) =
      some PyValue.none := by
  refine ⟨rfl, ?_⟩
  have hm : fns n ∈ names.map fns := List.mem_map_of_mem fns hmem
  have hlk := set_from_view_lookup names fns b a hne h (fns n)
  rw [if_pos hm] at hlk
  have h1 : (mcf_set names fns h b (SetValue.view a)).1 =
      set_from_view names fns b a h := rfl
  rw [h1, hlk, getattrD, hmiss]
  rfl

/- ## Witnesses -/

/-- Witness for claim C2 at a concrete field and mapping. -/
theorem set_dict_roundtrip_to_dict_witness :
    (List.map Prod.fst
        [("override_obj", PyValue.str "X"), ("enable_override", PyValue.bool true)]).Perm
      ["enable_override", "override_obj"] ∧
    ((mcf_set ["enable_override", "override_obj"] (fun n => n) (fun _ => []) 0
        (SetValue.dict
          [("override_obj", PyValue.str "X"),
           ("enable_override", PyValue.bool true)])).2 = Option.none ∧
      ∀ k, alookup k
          ((mcf_get ["enable_override", "override_obj"] (fun n => n) 0).to_dict
            (mcf_set ["enable_override", "override_obj"] (fun n => n) (fun _ => []) 0
              (SetValue.dict
                [("override_obj", PyValue.str "X"),
                 ("enable_override", PyValue.bool true)])).1)
        = alookup k
            [("override_obj", PyValue.str "X"),
             ("enable_override", PyValue.bool true)]) :=
  ⟨by decide,
   set_dict_roundtrip_to_dict ["enable_override", "override_obj"] (fun n => n)
     (fun _ => []) 0
     [("override_obj", PyValue.str "X"), ("enable_override", PyValue.bool true)]
     (by decide) (fun n₁ _ n₂ _ e => e)⟩

/-- Witness for claim C3 at two concrete instances. -/
theorem set_view_copies_values_witness :
    (0 : Nat) ≠ 1 ∧
    ((mcf_set ["x"] (fun n => n)
        (fun i => if i = 1 then [("x", PyValue.int 5)] else []) 0
        (SetValue.view 1)).2 = Option.none ∧
      (mcf_get ["x"] (fun n => n) 0).to_dict
          (mcf_set ["x"] (fun n => n)
            (fun i => if i = 1 then [("x", PyValue.int 5)] else []) 0
            (SetValue.view 1)).1 =
        (mcf_get ["x"] (fun n => n) 1).to_dict
          (mcf_set ["x"] (fun n => n)
            (fun i => if i = 1 then [("x", PyValue.int 5)] else []) 0
            (SetValue.view 1)).1 ∧
      ∀ c w, (hsetattr (mcf_set ["x"] (fun n => n)
          (fun i => if i = 1 then [("x", PyValue.int 5)] else []) 0
          (SetValue.view 1)).1 1 c w) 0 =
        (mcf_set ["x"] (fun n => n)
          (fun i => if i = 1 then [("x", PyValue.int 5)] else []) 0
          (SetValue.view 1)).1 0) :=
  ⟨by decide,
   set_view_copies_values ["x"] (fun n => n)
     (fun i => if i = 1 then [("x", PyValue.int 5)] else []) 1 0 (by decide)⟩

/-- Witness for claim C4 at a concrete object with the flag off and a
previously assigned override value. -/
theorem save_model_nulls_override_witness :
    alookup ("price" ++ "_enable_override")
        [("price_enable_override", PyValue.bool false),
         ("price_override_obj", PyValue.str "X")] =
      some (PyValue.bool false) ∧
    ((save_model "price" PyValue.none
        [("price_enable_override", PyValue.bool false),
         ("price_override_obj", PyValue.str "X")] PyValue.none true).2 =
      Option.none ∧
     alookup ("price" ++ "_override_obj")
        (save_model "price" PyValue.none
          [("price_enable_override", PyValue.bool false),
           ("price_override_obj", PyValue.str "X")] PyValue.none true).1 =
      some PyValue.none) :=
  ⟨by decide,
   save_model_nulls_override "price" PyValue.none
     [("price_enable_override", PyValue.bool false),
      ("price_override_obj", PyValue.str "X")] PyValue.none true (by decide)⟩

/-- Witness for claim C7 at a concrete mapping missing a declared name. -/
theorem set_dict_missing_key_error_witness :
    "override_obj" ∈ ["enable_override", "override_obj"] ∧
    alookup "override_obj" [("enable_override", PyValue.bool true)] =
      Option.none ∧
    ∃ k, alookup k [("enable_override", PyValue.bool true)] = Option.none ∧
      (mcf_set ["enable_override", "override_obj"] (fun n => n) (fun _ => []) 0
        (SetValue.dict [("enable_override", PyValue.bool true)])).2 =
        some (PyErr.keyError k) :=
  ⟨by decide, by decide,
   set_dict_missing_key_error ["enable_override", "override_obj"] (fun n => n)
     (fun _ => []) 0 [("enable_override", PyValue.bool true)] "override_obj"
     (by decide) (by decide)⟩

/-- Witness for claim C8 at a concrete object with the flag on. -/
theorem save_model_enabled_frame_witness :
    alookup ("price" ++ "_enable_override")
        [("price_enable_override", PyValue.bool true),
         ("price_override_obj", PyValue.str "X")] =
      some (PyValue.bool true) ∧
    save_model "price" PyValue.none
        [("price_enable_override", PyValue.bool true),
         ("price_override_obj", PyValue.str "X")] PyValue.none false =
      ([("price_enable_override", PyValue.bool true),
        ("price_override_obj", PyValue.str "X")], Option.none) :=
  ⟨by decide,
   save_model_enabled_frame "price" PyValue.none
     [("price_enable_override", PyValue.bool true),
      ("price_override_obj", PyValue.str "X")] PyValue.none false (by decide)⟩

/-- Witness for claim C9 at a concrete view with one absent and one present
column. -/
theorem to_dict_absent_defaults_none_witness :
    "a" ∈ ["a", "b"] ∧
    ((alookup ((fun n => n) "a") ((fun _ => [("b", PyValue.int 7)]) 0) =
        Option.none →
      alookup "a" ((mcf_get ["a", "b"] (fun n => n) 0).to_dict
          (fun _ => [("b", PyValue.int 7)])) = some PyValue.none) ∧
     (∀ w, alookup ((fun n => n) "a") ((fun _ => [("b", PyValue.int 7)]) 0) =
        some w →
      alookup "a" ((mcf_get ["a", "b"] (fun n => n) 0).to_dict
          (fun _ => [("b", PyValue.int 7)])) = some w)) :=
  ⟨by decide,
   to_dict_absent_defaults_none ["a", "b"] (fun n => n)
     (fun _ => [("b", PyValue.int 7)]) 0 "a" (by decide)⟩

/-- Witness for claim C10: copying from a source instance whose column is
absent writes `None` into the destination, with no error. -/
theorem set_view_missing_source_copies_none_witness :
    (0 : Nat) ≠ 1 ∧
    "x" ∈ ["x"] ∧
    alookup ((fun n => n) "x") ((fun _ => ([] : Obj)) 1) = Option.none ∧
    ((mcf_set ["x"] (fun n => n) (fun _ => ([] : Obj)) 0
        (SetValue.view 1)).2 = Option.none ∧
     alookup ((fun n => n) "x")
        ((mcf_set ["x"] (fun n => n) (fun _ => ([] : Obj)) 0
          (SetValue.view 1)).1 0) = some PyValue.none) :=
  ⟨by decide, by decide, by decide,
   set_view_missing_source_copies_none ["x"] (fun n => n) (fun _ => ([] : Obj))
     1 0 (by decide) "x" (by decide) (by decide)⟩

end OverrideFieldModel
